import Mathlib

/-!
Verification development for the sentence-retrieval core of the
language-coach backend: the fast tokenizer, the GDEX sentence scorer,
the per-language sentence index with its builder and persistence, and
the retrieval routine that intersects token postings, scores, filters
and ranks candidate sentences.

Python floats are modelled by exact rationals; Python dicts keyed by
strings or integers are modelled by functions into `Option` or lists;
Python sets of positions are modelled by duplicate-free lists whose
iteration order is determinized.  Fallible Python code (raised
exceptions) is modelled by `Option`/`Except`.  Character classes of
the regular expressions are exact on ASCII; non-ASCII characters are
classified as word characters, which is an approximation noted where
it occurs (all concrete inputs below are ASCII).
-/

/-- Characters matched by the first alternative of TOKEN_PATTERN,
the character class of letters a-z, A-Z and digits. -/
def isAsciiAlnum (c : Char) : Bool := c.isAlphanum

/-- Model of the regex word-character class: ASCII alphanumerics, the
underscore, and (approximately) every non-ASCII character. -/
def pyWordChar (c : Char) : Bool := c.isAlphanum || c == '_' || decide (c.toNat ≥ 128)

/-- Scanner for TOKEN_PATTERN, the alternation of a maximal run of
ASCII alphanumerics with a single character that is neither a word
character nor whitespace.  The accumulator holds the current
alphanumeric run in reverse. -/
def findallTokenPat : List Char → List Char → List (List Char)
  | [], acc => if acc.isEmpty then [] else [acc.reverse]
  | c :: cs, acc =>
    if isAsciiAlnum c then findallTokenPat cs (c :: acc)
    else
      (if acc.isEmpty then [] else [acc.reverse]) ++
      (if !(pyWordChar c) && !c.isWhitespace then [[c]] else []) ++
      findallTokenPat cs []

/-- The fixed punctuation characters dropped by the tokenizer filter
(comma, period, semicolon, colon, bang, question mark, parentheses,
brackets, braces, double quote, single quote). -/
def punctFilterChars : List Char :=
  [',', '.', ';', ':', '!', '?', '(', ')', '[', ']',
   Char.ofNat 123, Char.ofNat 125, Char.ofNat 34, Char.ofNat 39]

/-- The one-character tokens built from the punctuation characters.
A token produced by TOKEN_PATTERN is either a nonempty alphanumeric
run or a single non-word non-space character, so it contains no
whitespace (stripping is the identity on it) and it is a substring of
the punctuation string exactly when it is one of these one-character
tokens. -/
def punctTokens : List (List Char) := punctFilterChars.map (fun c => [c])

/-- The fast tokenizer: find all TOKEN_PATTERN matches, drop
punctuation tokens, lowercase the rest. -/
def quick_tokenize (text : String) : List String :=
  ((findallTokenPat text.data []).filter
      (fun tok => !(punctTokens.contains tok))).map
    (fun tok => String.mk (tok.map Char.toLower))

/-- Python str.lower, modelled character by character. -/
def pyLower (s : String) : String := String.mk (s.data.map Char.toLower)

/-- Scanner for the maximal runs of word characters in a string; this
is what the word-bounded word-run regex of the scorer tokenizer finds. -/
def wordRuns : List Char → List Char → List (List Char)
  | [], acc => if acc.isEmpty then [] else [acc.reverse]
  | c :: cs, acc =>
    if pyWordChar c then wordRuns cs (c :: acc)
    else (if acc.isEmpty then [] else [acc.reverse]) ++ wordRuns cs []

/-- The scorer tokenizer: word-character runs of the lowercased text,
each lowercased once more. -/
def gdexTokenize (text : String) : List String :=
  (wordRuns (pyLower text).data []).map (fun tok => String.mk (tok.map Char.toLower))

/-- Python str.strip: remove leading and trailing whitespace. -/
def pyStrip (s : String) : String :=
  String.mk (((s.data.dropWhile Char.isWhitespace).reverse.dropWhile
    Char.isWhitespace).reverse)

/-- Scanner for Python str.split with no argument: maximal runs of
non-whitespace characters. -/
def splitRuns : List Char → List Char → List (List Char)
  | [], acc => if acc.isEmpty then [] else [acc.reverse]
  | c :: cs, acc =>
    if c.isWhitespace then
      (if acc.isEmpty then [] else [acc.reverse]) ++ splitRuns cs []
    else splitRuns cs (c :: acc)

/-- Python str.split with no argument. -/
def pySplit (s : String) : List String :=
  (splitRuns s.data []).map String.mk

/-- Python str.find restricted to the found case: the least index at
which the needle occurs in the haystack, if any.  The membership test
of the source (the in operator) is the isSome of this. -/
def strFind (hay needle : List Char) : Option Nat :=
  (List.range (hay.length + 1)).find? (fun i => needle.isPrefixOf (hay.drop i))

/-- Substring containment, Python in on strings. -/
def strContainsSub (hay needle : List Char) : Bool := (strFind hay needle).isSome

/-- Common function words for English. -/
def COMMON_WORDS_EN : List String :=
  ["the", "be", "to", "of", "and", "a", "in", "that", "have", "i", "it", "for",
   "not", "on", "with", "he", "as", "you", "do", "at", "this", "but", "his",
   "by", "from", "they", "we", "say", "her", "she", "or", "an", "will", "my",
   "one", "all", "would", "there", "their", "what", "so", "up", "out", "if",
   "about", "who", "get", "which", "go", "me", "when", "make", "can", "like",
   "time", "no", "just", "him", "know", "take", "person", "into", "year",
   "your", "good", "some", "could", "them", "see", "other", "than", "then",
   "now", "look", "only", "come", "its", "over", "think", "also", "back",
   "after", "use", "two", "how", "our", "work", "first", "well", "way",
   "even", "new", "want", "because", "any", "these", "give", "day", "most",
   "us"]

/-- Common function words for Spanish. -/
def COMMON_WORDS_ES : List String :=
  ["el", "la", "de", "que", "y", "a", "en", "un", "ser", "se", "no", "haber",
   "por", "con", "su", "para", "como", "estar", "tener", "le", "lo", "todo",
   "pero", "más", "hacer", "o", "poder", "decir", "este", "ir", "otro",
   "ese", "si", "me", "ya", "ver", "porque", "dar", "cuando", "él", "muy",
   "sin", "vez", "mucho", "saber", "qué", "sobre", "mi", "alguno", "mismo",
   "yo", "también", "hasta", "año", "dos", "querer", "entre", "así",
   "primero", "desde", "grande", "eso", "ni", "nos", "llegar", "pasar",
   "tiempo", "ella", "día", "uno", "bien", "poco", "deber", "entonces",
   "poner", "cosa", "tanto", "hombre", "parecer", "nuestro", "tan", "donde",
   "ahora", "parte", "después", "vida", "quedar", "siempre", "creer",
   "hablar", "llevar", "dejar", "nada", "cada", "seguir", "menos", "nuevo",
   "encontrar"]

/-- Blocklisted words for English examples. -/
def AVOID_WORDS_EN : List String :=
  ["fuck", "shit", "damn", "hell", "bastard", "ass", "asshole", "bitch",
   "cunt", "dick", "crap", "piss", "nigger", "faggot"]

/-- Blocklisted words for Spanish examples. -/
def AVOID_WORDS_ES : List String :=
  ["mierda", "puta", "joder", "coño", "cabrón", "gilipollas", "hostia",
   "carajo", "follar", "chingar", "maricón", "polla"]

/-- English pronouns that may lack clear referents. -/
def PRONOUNS_EN : List String :=
  ["it", "they", "them", "their", "he", "she", "his", "her", "this", "that",
   "these", "those"]

/-- Spanish pronouns that may lack clear referents. -/
def PRONOUNS_ES : List String :=
  ["lo", "la", "los", "las", "él", "ella", "ellos", "ellas", "este", "esta",
   "estos", "estas"]

/-- Ideal token-count range per proficiency tier; an unknown tier
falls back to the intermediate range, which is the dict-get default. -/
def idealLengthRange (proficiency : String) : Nat × Nat :=
  if proficiency = "beginner" then (5, 10)
  else if proficiency = "intermediate" then (7, 15)
  else if proficiency = "advanced" then (10, 20)
  else (7, 15)

/-- Hard ceiling on acceptable sentence length in tokens. -/
def MAX_LENGTH : Nat := 30

/-- Maximum sentence length in tokens accepted by the index builder. -/
def MAX_SENTENCE_TOKENS : Nat := 30

/-- The per-language constant tables and proficiency-derived length
bounds of a GDEX scorer. -/
structure GdexScorer where
  common_words : List String
  avoid_words : List String
  pronouns : List String
  proficiency : String
  min_length : Nat
  max_length : Nat

/-- Scorer construction: language and proficiency are lowercased, the
language selects the constant tables, any other language raises, the
tier selects the length bounds. -/
def mkGdexScorer (language proficiency : String) : Option GdexScorer :=
  let lang := pyLower language
  let prof := pyLower proficiency
  if lang = "en" then
    some ⟨COMMON_WORDS_EN, AVOID_WORDS_EN, PRONOUNS_EN, prof,
      (idealLengthRange prof).1, (idealLengthRange prof).2⟩
  else if lang = "es" then
    some ⟨COMMON_WORDS_ES, AVOID_WORDS_ES, PRONOUNS_ES, prof,
      (idealLengthRange prof).1, (idealLengthRange prof).2⟩
  else none

/-- Length sub-score: scaled distance from the midpoint inside the
ideal range, linear decay below the minimum, linear decay above the
maximum reaching zero at the hard ceiling. -/
def score_length (cfg : GdexScorer) (tokens : List String) : ℚ :=
  let token_count : ℚ := tokens.length
  let minL : ℚ := cfg.min_length
  let maxL : ℚ := cfg.max_length
  if minL ≤ token_count ∧ token_count ≤ maxL then
    let mid_point := (minL + maxL) / 2
    let distance_from_mid := |token_count - mid_point|
    let max_distance := (maxL - minL) / 2
    1 - (distance_from_mid / max_distance) * (1 / 2)
  else if token_count < minL then
    max 0 ((1 / 2) * (token_count / minL))
  else if token_count > (MAX_LENGTH : ℚ) then 0
  else max 0 ((1 / 2) * (1 - (token_count - maxL) / ((MAX_LENGTH : ℚ) - maxL)))

/-- Enumerate the sentence tokens from a starting counter and return
the counter of the first one equal to, or containing as a substring,
the target token. -/
def findTokenPosAux (target_token : String) : List String → Nat → Option Nat
  | [], _ => none
  | sent_token :: rest, i =>
    if target_token == sent_token
        || strContainsSub sent_token.data target_token.data then some i
    else findTokenPosAux target_token rest (i + 1)

/-- First index of a sentence token equal to, or containing as a
substring, the target token. -/
def findTokenPos (sentence_tokens : List String) (target_token : String) : Option Nat :=
  findTokenPosAux target_token sentence_tokens 0

/-- First occurrence position of every target token in order, none as
soon as some token is absent. -/
def findTokenPositions : List String → List String → Option (List Nat)
  | [], _ => some []
  | t :: ts, sentence_tokens =>
    match findTokenPos sentence_tokens t with
    | none => none
    | some p =>
      match findTokenPositions ts sentence_tokens with
      | none => none
      | some ps => some (p :: ps)

/-- Sum of the gaps between consecutive matched token positions. -/
def gapSum : List Nat → ℤ
  | [] => 0
  | [_] => 0
  | a :: b :: t => ((b : ℤ) - (a : ℤ) - 1) + gapSum (b :: t)

/-- Character-offset fraction of the first occurrence of the target in
the lowercased sentence, zero when absent; this is the quantity the
single-token position band is measured on. -/
def charOffsetFrac (sentence target : String) : ℚ :=
  match strFind (pyLower sentence).data (pyLower target).data with
  | some i => (i : ℚ) / ((pyLower sentence).data.length : ℚ)
  | none => 0

/-- The single-token position formula: one inside the band from three
tenths to seven tenths of the way through, tapering linearly toward
either edge outside it. -/
def singleBandScore (frac : ℚ) : ℚ :=
  if 3 / 10 ≤ frac ∧ frac ≤ 7 / 10 then 1
  else if frac < 3 / 10 then 1 / 2 + (frac / (3 / 10)) * (1 / 2)
  else 1 / 2 + ((1 - frac) / (3 / 10)) * (1 / 2)

/-- The banded gap component of the multi-token position formula. -/
def gapScore (total_gap : ℤ) : ℚ :=
  if total_gap = 0 then 1
  else if total_gap = 1 then 9 / 10
  else if total_gap ≤ 3 then 4 / 5
  else if total_gap ≤ 6 then 3 / 5
  else if total_gap ≤ 10 then 2 / 5
  else 1 / 5

/-- The middle-preference position component of the multi-token
formula: one inside the band from one fifth to four fifths, tapering
toward either edge outside it. -/
def bandPositionScore (frac : ℚ) : ℚ :=
  if 1 / 5 ≤ frac ∧ frac ≤ 4 / 5 then 1
  else if frac < 1 / 5 then 7 / 10 + (frac / (1 / 5)) * (3 / 10)
  else 7 / 10 + ((1 - frac) / (1 / 5)) * (3 / 10)

/-- The in-order multi-token blend: seventy percent gap component and
thirty percent position component of the phrase center, capped at
one; none models the index error the source raises on an empty
position list (an empty target phrase). -/
def inOrderScore (token_positions : List Nat) (sentence_length : Nat) : Option ℚ :=
  match token_positions with
  | [] => none
  | p0 :: rest =>
    let phrase_center : ℚ := ((p0 : ℚ) + (((p0 :: rest).getLastD 0 : Nat) : ℚ)) / 2
    let frac : ℚ :=
      if sentence_length > 1 then phrase_center / ((sentence_length : ℚ) - 1)
      else 1 / 2
    some (min 1 (gapScore (gapSum (p0 :: rest)) * (7 / 10)
      + bandPositionScore frac * (3 / 10)))

/-- Target-position sub-score.  Single-token targets score one inside
the character-offset band from three tenths to seven tenths and taper
toward the edges, zero when absent.  Multi-token targets score one or
nine tenths on an exact substring match depending on its position;
otherwise each target token is located among the sentence tokens
(one tenth when some token is missing), out-of-order matches score
one fifth, and in-order matches blend a banded gap score with a
middle-preference position score.  The none results model the two
places the source raises: division by zero on an exact match inside
an empty sentence, and indexing an empty position list for an empty
target. -/
def score_target_position (sentence target_phrase : String) : Option ℚ :=
  let sentence_lower := (pyLower sentence).data
  match pySplit (pyLower target_phrase) with
  | [target_word] =>
    match strFind sentence_lower target_word.data with
    | none => some 0
    | some start_idx =>
      some (singleBandScore ((start_idx : ℚ) / (sentence_lower.length : ℚ)))
  | target_tokens =>
    match strFind sentence_lower (pyLower target_phrase).data with
    | some start_idx =>
      if sentence_lower.length = 0 then none
      else
        let frac : ℚ := (start_idx : ℚ) / (sentence_lower.length : ℚ)
        if 1 / 5 ≤ frac ∧ frac ≤ 4 / 5 then some 1 else some (9 / 10)
    | none =>
      let sentence_tokens := gdexTokenize sentence
      match findTokenPositions target_tokens sentence_tokens with
      | none => some (1 / 10)
      | some token_positions =>
        if token_positions ≠ token_positions.mergeSort (fun a b => decide (a ≤ b)) then
          some (1 / 5)
        else inOrderScore token_positions sentence_tokens.length

/-- Common-words sub-score: fraction of common tokens against a
proficiency-specific ideal fraction, one at or above the ideal. -/
def score_common_words (cfg : GdexScorer) (tokens : List String) : ℚ :=
  if tokens = [] then 0
  else
    let common_count := (tokens.filter (fun t => cfg.common_words.contains t)).length
    let common_frac : ℚ := (common_count : ℚ) / (tokens.length : ℚ)
    let ideal_frac : ℚ :=
      if cfg.proficiency = "beginner" then 9 / 10
      else if cfg.proficiency = "intermediate" then 4 / 5
      else 7 / 10
    if common_frac ≥ ideal_frac then 1 else common_frac / ideal_frac

/-- Avoid-words sub-score: zero when any token is blocklisted. -/
def score_avoid_words (cfg : GdexScorer) (tokens : List String) : ℚ :=
  if tokens.any (fun t => cfg.avoid_words.contains t) then 0 else 1

/-- Pronoun sub-score: a sentence opening with a pronoun scores one
half; otherwise penalize high pronoun fractions. -/
def score_pronouns (cfg : GdexScorer) (tokens : List String) : ℚ :=
  match tokens with
  | [] => 0
  | t0 :: _ =>
    if cfg.pronouns.contains t0 then 1 / 2
    else
      let pronoun_count := (tokens.filter (fun t => cfg.pronouns.contains t)).length
      let pronoun_frac : ℚ := (pronoun_count : ℚ) / (tokens.length : ℚ)
      if pronoun_frac > 3 / 10 then 1 / 2
      else if pronoun_frac > 1 / 5 then 3 / 4
      else 1

/-- Syntactic-completeness sub-score: base one with fixed penalties
for a lowercase start, a missing terminal punctuation mark, and more
than one sentence terminator, floored at zero. -/
def score_syntactic (sentence : String) : ℚ :=
  match sentence.data with
  | [] => 0
  | c0 :: rest =>
    let last_char := (c0 :: rest).getLastD c0
    let starts_with_uppercase := c0.isUpper
    let ends_with_punct := last_char == '.' || last_char == '?' || last_char == '!'
    let marker_count :=
      ((c0 :: rest).filter (fun c => c == '.' || c == '!' || c == '?')).length
    let is_single_sentence := marker_count ≤ 1
    max 0 (1 - (if starts_with_uppercase then 0 else 3 / 10)
             - (if ends_with_punct then 0 else 3 / 10)
             - (if is_single_sentence then 0 else 2 / 5))

/-- The six proficiency-specific weights. -/
structure GdexWeights where
  length : ℚ
  target_position : ℚ
  common_words : ℚ
  avoid_words : ℚ
  pronouns : ℚ
  syntactic : ℚ

/-- Weight tables per proficiency tier; an unknown tier takes the
intermediate weights. -/
def gdexWeights (proficiency : String) : GdexWeights :=
  if proficiency = "beginner" then ⟨1/4, 3/20, 3/10, 3/20, 1/10, 1/20⟩
  else if proficiency = "advanced" then ⟨3/20, 3/20, 3/20, 3/20, 3/20, 1/4⟩
  else ⟨1/5, 3/20, 1/4, 3/20, 1/10, 3/20⟩

/-- The six sub-scores together with the weighted total. -/
structure GdexScores where
  length : ℚ
  target_position : ℚ
  common_words : ℚ
  avoid_words : ℚ
  pronouns : ℚ
  syntactic : ℚ
  total : ℚ
deriving DecidableEq, Repr

/-- The GDEX scoring routine: strip the sentence, lowercase the
target, tokenize unless a tokenization is supplied, compute the six
sub-scores and their weighted total.  None models the exceptions that
can escape the target-position sub-score. -/
def score_sentence (cfg : GdexScorer) (sentence target_phrase : String)
    (tokenized_sentence : Option (List String)) : Option GdexScores :=
  let s := pyStrip sentence
  let tp := pyLower target_phrase
  let tokens := tokenized_sentence.getD (gdexTokenize s)
  match score_target_position s tp with
  | none => none
  | some target_position_score =>
    let length_score := score_length cfg tokens
    let common_words_score := score_common_words cfg tokens
    let avoid_words_score := score_avoid_words cfg tokens
    let pronouns_score := score_pronouns cfg tokens
    let syntactic_score := score_syntactic s
    let w := gdexWeights cfg.proficiency
    some ⟨length_score, target_position_score, common_words_score,
      avoid_words_score, pronouns_score, syntactic_score,
      length_score * w.length + target_position_score * w.target_position
        + common_words_score * w.common_words + avoid_words_score * w.avoid_words
        + pronouns_score * w.pronouns + syntactic_score * w.syntactic⟩

/-- Source metadata attached to an indexed sentence: originating
document id, title and category. -/
structure PhraseMeta where
  text_id : Int
  title : String
  category : String
deriving DecidableEq, Repr

/-- A sentence record of the upstream corpus store. -/
structure PhraseRec where
  id : Int
  text : String
  language : String
  text_id : Int
deriving DecidableEq, Repr

/-- A source-document record of the upstream corpus store. -/
structure TextRec where
  id : Int
  title : String
  category : String
deriving DecidableEq, Repr

/-- The upstream corpus store visible to the index builder. -/
structure CorpusDB where
  phrases : List PhraseRec
  texts : List TextRec

/-- The per-language sentence index: parallel arrays of sentence ids,
texts and cached tokenizations, the posting map from token to the
positions containing it, and per-id metadata.  The posting map and
the metadata dict are modelled as functions with empty defaults. -/
structure IndexData where
  phrase_ids : List Int
  texts : List String
  tokenized_texts : List (List String)
  token_to_phrases : String → List Nat
  metadata : Int → Option PhraseMeta

/-- Add one position to the posting entry of every distinct token of
a sentence; set semantics keeps each entry duplicate-free. -/
def addPhraseTokens (m : String → List Nat) (tokens : List String)
    (pos : Nat) : String → List Nat :=
  tokens.dedup.foldl (fun m t => Function.update m t ((m t).insert pos)) m

/-- The growing parallel structures of a build pass. -/
structure BuildState where
  phrase_ids : List Int
  texts : List String
  tokenized_texts : List (List String)
  token_to_phrases : String → List Nat

/-- One build iteration: tokenize, drop the sentence above the hard
token ceiling, otherwise append to every parallel structure and post
its distinct tokens at the new position. -/
def buildStep (st : BuildState) (p : PhraseRec) : BuildState :=
  let tokens := quick_tokenize p.text
  if tokens.length ≤ MAX_SENTENCE_TOKENS then
    { phrase_ids := st.phrase_ids ++ [p.id]
      texts := st.texts ++ [p.text]
      tokenized_texts := st.tokenized_texts ++ [tokens]
      token_to_phrases := addPhraseTokens st.token_to_phrases tokens st.phrase_ids.length }
  else st

/-- The index builder: select the records of the language (none means
the empty-dict early return of the source), pre-filter on the cheap
whitespace word count bound of 35, fold the tokenizing build step over
the survivors (the batching of the source concatenates to the same
fold), then attach metadata by joining each kept id with its source
document.  Persistence of the result is modelled separately by
save_index. -/
def build_sentence_index (db : CorpusDB) (language : String) : Option IndexData :=
  let phrases := db.phrases.filter (fun p => p.language == language)
  if phrases = [] then none
  else
    let candidate_phrases := phrases.filter (fun p => (pySplit p.text).length ≤ 35)
    let st := candidate_phrases.foldl buildStep ⟨[], [], [], fun _ => []⟩
    if st.tokenized_texts = [] then none
    else
      some { phrase_ids := st.phrase_ids
             texts := st.texts
             tokenized_texts := st.tokenized_texts
             token_to_phrases := st.token_to_phrases
             metadata := fun pid =>
               if st.phrase_ids.contains pid then
                 (db.phrases.find? (fun p => p.id == pid)).bind (fun p =>
                   (db.texts.find? (fun t => t.id == p.text_id)).map
                     (fun t => ⟨t.id, t.title, t.category⟩))
               else none }

/-- The retriever: its proficiency and its per-language loaded
indexes. -/
structure SentenceRetriever where
  user_proficiency : String
  index_data : String → Option IndexData

/-- The per-language scorer table of the retriever, holding scorers
for English and Spanish only. -/
def gdex_scorers (r : SentenceRetriever) (language : String) : Option GdexScorer :=
  if language = "en" then mkGdexScorer "en" r.user_proficiency
  else if language = "es" then mkGdexScorer "es" r.user_proficiency
  else none

/-- The candidate-collection loop of the retriever: posting lookup per
query token, where an empty running set is replaced by the postings of
the next token and a nonempty one is intersected with them. -/
def matching_phrases (m : String → List Nat) (query_tokens : List String) : List Nat :=
  query_tokens.foldl
    (fun acc token => if acc = [] then m token
      else acc.filter (fun i => (m token).contains i)) []

/-- The six sub-scores kept as the detailed-score annotation. -/
structure GdexSubScores where
  length : ℚ
  target_position : ℚ
  common_words : ℚ
  avoid_words : ℚ
  pronouns : ℚ
  syntactic : ℚ
deriving DecidableEq, Repr

/-- One retrieval result: sentence, total score, the metadata fields
(absent metadata yields absent fields) and the detailed sub-scores. -/
structure ExampleResult where
  sentence : String
  score : ℚ
  text_id : Option Int
  title : Option String
  category : Option String
  detailed_scores : GdexSubScores
deriving DecidableEq, Repr

/-- Assemble the result entry for the candidate at one position. -/
def mkExampleResult (idx : IndexData) (i : Nat) (sc : GdexScores) : ExampleResult :=
  let phrase_id := idx.phrase_ids.getD i 0
  let meta := idx.metadata phrase_id
  { sentence := idx.texts.getD i ""
    score := sc.total
    text_id := meta.map (fun m => m.text_id)
    title := meta.map (fun m => m.title)
    category := meta.map (fun m => m.category)
    detailed_scores := ⟨sc.length, sc.target_position, sc.common_words,
      sc.avoid_words, sc.pronouns, sc.syntactic⟩ }

/-- Score every candidate position with the cached tokenization and
keep those whose total reaches the acceptance threshold of four
fifths; none propagates a scoring exception. -/
def scoreCandidates (scorer : GdexScorer) (idx : IndexData) (phrase : String) :
    List Nat → Option (List ExampleResult)
  | [] => some []
  | i :: rest =>
    match score_sentence scorer (idx.texts.getD i "") phrase
        (some (idx.tokenized_texts.getD i [])) with
    | none => none
    | some sc =>
      match scoreCandidates scorer idx phrase rest with
      | none => none
      | some tail =>
        if sc.total < 4 / 5 then some tail
        else some (mkExampleResult idx i sc :: tail)

/-- Descending comparison on the total score, the sort key of the
retriever. -/
def resultLe (a b : ExampleResult) : Bool := decide (b.score ≤ a.score)

/-- The retrieval routine: missing index yields the empty list, the
query is tokenized with the fast tokenizer, candidates are collected
by posting lookup, an empty candidate set yields the empty list, a
language without a scorer raises, candidates are scored and filtered
by the threshold, sorted by descending total and cut to the first
top_n. -/
def get_best_examples (r : SentenceRetriever) (phrase language : String)
    (top_n : Nat) : Except String (List ExampleResult) :=
  match r.index_data language with
  | none => .ok []
  | some idx =>
    let query_tokens := quick_tokenize phrase
    let matching := matching_phrases idx.token_to_phrases query_tokens
    if matching = [] then .ok []
    else
      match gdex_scorers r language with
      | none => .error "no scorer for language"
      | some scorer =>
        match scoreCandidates scorer idx phrase matching with
        | none => .error "exception while scoring"
        | some results => .ok ((results.mergeSort resultLe).take top_n)

/-- Modelled from the spec: the incremental-add operation add_one,
called add_phrase_to_index at its call site in the phrase service and
in the tests, is absent from the retriever source; following the spec
it appends the new sentence to every parallel structure, posts each
distinct token of the new sentence at the new position, and records
the metadata under the new id. -/
def add_one (idx : IndexData) (rec : PhraseRec) (meta : PhraseMeta)
    (tokens : List String) : IndexData :=
  { phrase_ids := idx.phrase_ids ++ [rec.id]
    texts := idx.texts ++ [rec.text]
    tokenized_texts := idx.tokenized_texts ++ [tokens]
    token_to_phrases := addPhraseTokens idx.token_to_phrases tokens idx.phrase_ids.length
    metadata := Function.update idx.metadata rec.id (some meta) }

/-- The per-language file name of a persisted index. -/
def index_file_name (language : String) : String :=
  "sentence_index_" ++ language ++ ".pkl"

/-- Persist an index: the index directory is modelled as a map from
file name to stored structure, and the serialization round-trip of the
stdlib serializer on these field types is modelled as exact storage. -/
def save_index (fs : String → Option IndexData) (language : String)
    (idx : IndexData) : String → Option IndexData :=
  Function.update fs (index_file_name language) (some idx)

/-- Load the persisted index of one language, if its file exists. -/
def load_index (fs : String → Option IndexData) (language : String) : Option IndexData :=
  fs (index_file_name language)

/-- The keyword parameters accepted by the retrieval routine, from its
signature: phrase, language, top_n. -/
def getBestExamplesKeywordParams : List String := ["phrase", "language", "top_n"]

/-- The keyword arguments the sentence service passes at its call
site, including use_gdex. -/
def searchForSentencesCallKeywords : List String :=
  ["phrase", "language", "top_n", "use_gdex"]

/-- A keyword call binds only when every passed keyword is an accepted
parameter; otherwise the call raises a TypeError. -/
def pyCallAllowed (params kwargs : List String) : Bool :=
  kwargs.all (fun k => params.contains k)

/-- One formatted entry of the service response. -/
structure FormattedResult where
  id : String
  sentence : String
  score : ℚ
  title : Option String
  category : Option String
deriving DecidableEq, Repr

/-- Format one retrieval result for the service response. -/
def formatResult (r : ExampleResult) : FormattedResult :=
  { id := match r.text_id with | some n => toString n | none => "None"
    sentence := r.sentence
    score := r.score
    title := r.title
    category := r.category }

/-- The service search: it invokes the retrieval routine with the
keyword arguments of its call site, and its handler converts any
exception, in particular the TypeError from an unaccepted keyword,
into an HTTP 500 error. -/
def search_for_sentences (r : SentenceRetriever) (word language : String)
    (top_n : Nat) : Except Nat (List FormattedResult) :=
  if pyCallAllowed getBestExamplesKeywordParams searchForSentencesCallKeywords then
    match get_best_examples r word language top_n with
    | .error _ => .error 500
    | .ok exs => .ok (exs.map formatResult)
  else .error 500

/-- The empty index value. -/
def emptyIndex : IndexData := ⟨[], [], [], fun _ => [], fun _ => none⟩

/-- A retriever with no loaded index for any language. -/
def emptyRetriever : SentenceRetriever := ⟨"intermediate", fun _ => none⟩

/-- Concrete corpus record used in the evaluations below. -/
def demoPhrase : PhraseRec :=
  ⟨1, "We can see that hello will be good for all time.", "en", 10⟩

/-- Concrete source document for the record above. -/
def demoText : TextRec := ⟨10, "Demo Title", "fiction"⟩

/-- Concrete one-sentence corpus. -/
def demoDB : CorpusDB := ⟨[demoPhrase], [demoText]⟩

/-- The index built from the one-sentence corpus. -/
def demoIndex : IndexData := (build_sentence_index demoDB "en").getD emptyIndex

/-- A retriever whose English index is the one built above. -/
def demoRetriever : SentenceRetriever :=
  ⟨"intermediate", fun l => if l = "en" then some demoIndex else none⟩

/-- Membership in the closed unit interval. -/
def withinUnit (q : ℚ) : Prop := 0 ≤ q ∧ q ≤ 1

theorem strFind_le (hay needle : List Char) (i : Nat)
    (h : strFind hay needle = some i) : i ≤ hay.length := by
  unfold strFind at h
  have hm := List.mem_of_find?_eq_some h
  rw [List.mem_range] at hm
  omega

theorem findTokenPosAux_lt (t : String) :
    ∀ (l : List String) (i p : Nat), findTokenPosAux t l i = some p →
      p < i + l.length := by
  intro l
  induction l with
  | nil => intro i p h; exact Option.noConfusion h
  | cons a as ih =>
    intro i p h
    unfold findTokenPosAux at h
    split_ifs at h with hc
    · injection h with h
      subst h
      simp [List.length_cons]
    · have := ih (i + 1) p h
      simp only [List.length_cons]
      omega

theorem findTokenPositions_lt :
    ∀ (tt st : List String) (ps : List Nat), findTokenPositions tt st = some ps →
      ∀ p ∈ ps, p < st.length := by
  intro tt
  induction tt with
  | nil =>
    intro st ps h p hp
    simp only [findTokenPositions, Option.some.injEq] at h
    subst h
    cases hp
  | cons t ts ih =>
    intro st ps h p hp
    unfold findTokenPositions at h
    split at h
    · exact Option.noConfusion h
    · rename_i p0 hfind
      split at h
      · exact Option.noConfusion h
      · rename_i ps0 hps0
        injection h with h
        subst h
        rcases List.mem_cons.mp hp with h1 | h2
        · subst h1
          have := findTokenPosAux_lt t st 0 p hfind
          omega
        · exact ih st ps0 hps0 p h2

theorem getLastD_mem : ∀ (l : List Nat) (d : Nat), l ≠ [] → l.getLastD d ∈ l := by
  intro l
  induction l with
  | nil => intro d h; exact absurd rfl h
  | cons a as ih =>
    intro d _
    rw [List.getLastD_cons]
    cases as with
    | nil => simp [List.getLastD]
    | cons b bs => exact List.mem_cons_of_mem _ (ih a (by simp))

theorem singleBandScore_nonneg (frac : ℚ) (h0 : 0 ≤ frac) (h1 : frac ≤ 1) :
    0 ≤ singleBandScore frac ∧ singleBandScore frac ≤ 1 := by
  unfold singleBandScore
  split_ifs with hband hlow
  · norm_num
  · have hd1 : frac / (3 / 10) ≤ 1 := by
      rw [div_le_one (by norm_num)]
      linarith
    have hd0 : 0 ≤ frac / (3 / 10) := div_nonneg h0 (by norm_num)
    constructor <;> linarith
  · have hd1 : (1 - frac) / (3 / 10) ≤ 1 := by
      rw [div_le_one (by norm_num)]
      push_neg at hband hlow
      have := hband hlow
      linarith
    have hd0 : 0 ≤ (1 - frac) / (3 / 10) := div_nonneg (by linarith) (by norm_num)
    constructor <;> linarith

theorem singleBandScore_eq_one_iff (frac : ℚ) :
    (singleBandScore frac = 1 ↔ (3 / 10 ≤ frac ∧ frac ≤ 7 / 10)) ∧
    ((frac < 3 / 10 ∨ 7 / 10 < frac) → singleBandScore frac < 1) := by
  unfold singleBandScore
  split_ifs with hband hlow
  · constructor
    · exact iff_of_true rfl hband
    · intro hc
      rcases hc with h | h <;> [exact absurd hband.1 (by linarith); exact absurd hband.2 (by linarith)]
  · have hlt : frac / (3 / 10) < 1 := by
      rw [div_lt_one (by norm_num)]
      linarith
    constructor
    · constructor
      · intro h
        exact absurd h (by linarith)
      · intro h
        exact absurd h.1 (by linarith)
    · intro _
      linarith
  · push_neg at hband hlow
    have hhigh : 7 / 10 < frac := by
      have := hband hlow
      linarith
    have hlt : (1 - frac) / (3 / 10) < 1 := by
      rw [div_lt_one (by norm_num)]
      linarith
    constructor
    · constructor
      · intro h
        exact absurd h (by linarith)
      · intro h
        exact absurd h.2 (by linarith)
    · intro _
      linarith

theorem gapScore_bounds (g : ℤ) : 1 / 5 ≤ gapScore g ∧ gapScore g ≤ 1 := by
  unfold gapScore
  split_ifs <;> norm_num

theorem bandPositionScore_bounds (frac : ℚ) (h0 : 0 ≤ frac) (h1 : frac ≤ 1) :
    7 / 10 ≤ bandPositionScore frac ∧ bandPositionScore frac ≤ 1 := by
  unfold bandPositionScore
  split_ifs with hband hlow
  · norm_num
  · have hd1 : frac / (1 / 5) ≤ 1 := by
      rw [div_le_one (by norm_num)]
      linarith
    have hd0 : 0 ≤ frac / (1 / 5) := div_nonneg h0 (by norm_num)
    constructor <;> linarith
  · have hd1 : (1 - frac) / (1 / 5) ≤ 1 := by
      rw [div_le_one (by norm_num)]
      push_neg at hband hlow
      have := hband hlow
      linarith
    have hd0 : 0 ≤ (1 - frac) / (1 / 5) := div_nonneg (by linarith) (by norm_num)
    constructor <;> linarith

theorem inOrderScore_bounds (ps : List Nat) (n : Nat) (q : ℚ)
    (hlt : ∀ p ∈ ps, p < n) (h : inOrderScore ps n = some q) :
    0 ≤ q ∧ q ≤ 1 := by
  unfold inOrderScore at h
  split at h
  · exact Option.noConfusion h
  · rename_i p0 rest
    injection h with h
    subst h
    set frac : ℚ :=
      if n > 1 then (((p0 : ℚ) + (((p0 :: rest).getLastD 0 : Nat) : ℚ)) / 2) / ((n : ℚ) - 1)
      else 1 / 2 with hfrac
    have hfr : 0 ≤ frac ∧ frac ≤ 1 := by
      rw [hfrac]
      split_ifs with hn
      · have hp0 : p0 < n := hlt p0 (List.mem_cons_self _ _)
        have hlast : (p0 :: rest).getLastD 0 < n :=
          hlt _ (getLastD_mem (p0 :: rest) 0 (by simp))
        have hnq : (1 : ℚ) < (n : ℚ) := by exact_mod_cast hn
        have hp0q : (p0 : ℚ) ≤ (n : ℚ) - 1 := by
          have : (p0 : ℚ) + 1 ≤ (n : ℚ) := by exact_mod_cast hp0
          linarith
        have hlastq : (((p0 :: rest).getLastD 0 : Nat) : ℚ) ≤ (n : ℚ) - 1 := by
          have : (((p0 :: rest).getLastD 0 : Nat) : ℚ) + 1 ≤ (n : ℚ) := by
            exact_mod_cast hlast
          linarith
        constructor
        · apply div_nonneg _ (by linarith)
          positivity
        · rw [div_le_one (by linarith)]
          have h0a : (0 : ℚ) ≤ (p0 : ℚ) := Nat.cast_nonneg _
          have h0b : (0 : ℚ) ≤ (((p0 :: rest).getLastD 0 : Nat) : ℚ) := Nat.cast_nonneg _
          linarith
      · norm_num
    have hg := gapScore_bounds (gapSum (p0 :: rest))
    have hb := bandPositionScore_bounds frac hfr.1 hfr.2
    constructor
    · apply le_min (by norm_num)
      nlinarith [hg.1, hb.1]
    · exact min_le_left _ _

theorem score_target_position_bounds (sentence target_phrase : String) (q : ℚ)
    (h : score_target_position sentence target_phrase = some q) :
    0 ≤ q ∧ q ≤ 1 := by
  unfold score_target_position at h
  dsimp only at h
  split at h
  · rename_i target_word
    split at h
    · injection h with h
      subst h
      norm_num
    · rename_i start_idx hfind
      injection h with h
      subst h
      have hle := strFind_le _ _ _ hfind
      by_cases hlen : (pyLower sentence).data.length = 0
      · rw [hlen]
        simp only [Nat.cast_zero, div_zero]
        exact singleBandScore_nonneg 0 le_rfl (by norm_num)
      · apply singleBandScore_nonneg
        · exact div_nonneg (Nat.cast_nonneg _) (Nat.cast_nonneg _)
        · rw [div_le_one (by exact_mod_cast Nat.pos_of_ne_zero hlen)]
          exact_mod_cast hle
  · rename_i target_tokens
    split at h
    · rename_i start_idx hfind
      split_ifs at h with hz hband
      · injection h with h
        subst h
        norm_num
      · injection h with h
        subst h
        norm_num
    · split at h
      · injection h with h
        subst h
        norm_num
      · rename_i token_positions hpos
        split_ifs at h with hsorted
        · injection h with h
          subst h
          norm_num
        · exact inOrderScore_bounds _ _ _
            (findTokenPositions_lt _ _ _ hpos) h

theorem foldl_post_mem (pos : Nat) :
    ∀ (l : List String) (m : String → List Nat) (t : String) (p : Nat),
      p ∈ (l.foldl (fun acc tok => Function.update acc tok ((acc tok).insert pos)) m) t →
      p ∈ m t ∨ (p = pos ∧ t ∈ l) := by
  intro l
  induction l with
  | nil => intro m t p h; exact Or.inl h
  | cons a as ih =>
    intro m t p h
    simp only [List.foldl_cons] at h
    rcases ih _ t p h with h1 | h2
    · by_cases hta : t = a
      · subst hta
        rw [Function.update_same] at h1
        rcases List.mem_insert_iff.mp h1 with h3 | h4
        · exact Or.inr ⟨h3, List.mem_cons_self _ _⟩
        · exact Or.inl h4
      · rw [Function.update_noteq hta] at h1
        exact Or.inl h1
    · exact Or.inr ⟨h2.1, List.mem_cons_of_mem _ h2.2⟩

theorem foldl_post_mem_old (pos : Nat) :
    ∀ (l : List String) (m : String → List Nat) (t : String) (p : Nat),
      p ∈ m t →
      p ∈ (l.foldl (fun acc tok => Function.update acc tok ((acc tok).insert pos)) m) t := by
  intro l
  induction l with
  | nil => exact fun m t p h => h
  | cons a as ih =>
    intro m t p h
    simp only [List.foldl_cons]
    apply ih
    by_cases hta : t = a
    · subst hta
      rw [Function.update_same]
      exact List.mem_insert_iff.mpr (Or.inr h)
    · rw [Function.update_noteq hta]
      exact h

theorem foldl_post_mem_new (pos : Nat) :
    ∀ (l : List String) (m : String → List Nat) (t : String),
      t ∈ l →
      pos ∈ (l.foldl (fun acc tok => Function.update acc tok ((acc tok).insert pos)) m) t := by
  intro l
  induction l with
  | nil => intro m t h; cases h
  | cons a as ih =>
    intro m t h
    simp only [List.foldl_cons]
    rcases List.mem_cons.mp h with h1 | h2
    · subst h1
      apply foldl_post_mem_old
      rw [Function.update_same]
      exact List.mem_insert_self _ _
    · exact ih _ t h2

theorem addPhraseTokens_mem (m : String → List Nat) (tokens : List String)
    (pos : Nat) (t : String) (p : Nat) (h : p ∈ addPhraseTokens m tokens pos t) :
    p ∈ m t ∨ (p = pos ∧ t ∈ tokens) := by
  unfold addPhraseTokens at h
  rcases foldl_post_mem pos tokens.dedup m t p h with h1 | h2
  · exact Or.inl h1
  · exact Or.inr ⟨h2.1, List.mem_dedup.mp h2.2⟩

theorem addPhraseTokens_mem_old (m : String → List Nat) (tokens : List String)
    (pos : Nat) (t : String) (p : Nat) (h : p ∈ m t) :
    p ∈ addPhraseTokens m tokens pos t := by
  unfold addPhraseTokens
  exact foldl_post_mem_old pos tokens.dedup m t p h

theorem addPhraseTokens_mem_new (m : String → List Nat) (tokens : List String)
    (pos : Nat) (t : String) (h : t ∈ tokens) :
    pos ∈ addPhraseTokens m tokens pos t := by
  unfold addPhraseTokens
  exact foldl_post_mem_new pos tokens.dedup m t (List.mem_dedup.mpr h)

theorem scoreCandidates_threshold (scorer : GdexScorer) (idx : IndexData)
    (phrase : String) :
    ∀ (l : List Nat) (rs : List ExampleResult),
      scoreCandidates scorer idx phrase l = some rs →
      ∀ res ∈ rs, 4 / 5 ≤ res.score := by
  intro l
  induction l with
  | nil =>
    intro rs h res hres
    simp only [scoreCandidates, Option.some.injEq] at h
    subst h
    cases hres
  | cons i rest ih =>
    intro rs h res hres
    unfold scoreCandidates at h
    split at h
    · exact Option.noConfusion h
    · rename_i sc hs
      split at h
      · exact Option.noConfusion h
      · rename_i tail htail
        split_ifs at h with hth
        · injection h with h
          subst h
          exact ih tail htail res hres
        · injection h with h
          subst h
          rcases List.mem_cons.mp hres with h1 | h2
          · subst h1
            exact le_of_not_lt hth
          · exact ih tail htail res h2

/-- C3: for every retriever instance, word, language and top_n, the
service search never returns a result list: the call site passes the
keyword use_gdex, which the retrieval routine does not accept, so the
call raises a TypeError that the handler converts into an HTTP 500
error. -/
theorem search_for_sentences_always_http_500 :
    ∀ (r : SentenceRetriever) (word language : String) (top_n : Nat),
      search_for_sentences r word language top_n = Except.error 500 :=
  fun _ _ _ _ => rfl

/-- C9: building the index for a language with zero records yields the
empty result without an error, and querying a language with no loaded
index returns the empty list without an error. -/
theorem empty_language_handling :
    (∀ (db : CorpusDB) (language : String),
      db.phrases.filter (fun p => p.language == language) = [] →
      build_sentence_index db language = none) ∧
    (∀ (r : SentenceRetriever) (phrase language : String) (top_n : Nat),
      r.index_data language = none →
      get_best_examples r phrase language top_n = Except.ok []) := by
  constructor
  · intro db language h
    simp [build_sentence_index, h]
  · intro r phrase language top_n h
    unfold get_best_examples
    rw [h]

theorem empty_language_handling_witness :
    build_sentence_index ⟨[], []⟩ "en" = none ∧
    get_best_examples emptyRetriever "test" "fr" 5 = Except.ok [] :=
  ⟨empty_language_handling.1 ⟨[], []⟩ "en" rfl,
   empty_language_handling.2 emptyRetriever "test" "fr" 5 rfl⟩

/-- C10: persisting an index and loading it back for the same language
returns the identical structure, persisting one language does not
disturb the file of another, and the per-language file name pattern
sentence_index_(lang).pkl keys files unambiguously by language code. -/
theorem index_persistence_roundtrip :
    (∀ (fs : String → Option IndexData) (language : String) (idx : IndexData),
      load_index (save_index fs language idx) language = some idx) ∧
    (∀ (fs : String → Option IndexData) (language : String) (idx : IndexData)
        (lang2 : String), lang2 ≠ language →
      load_index (save_index fs language idx) lang2 = load_index fs lang2) ∧
    (∀ l1 l2 : String, index_file_name l1 = index_file_name l2 → l1 = l2) ∧
    (∀ language : String,
      index_file_name language = "sentence_index_" ++ language ++ ".pkl") := by
  have hinj : ∀ l1 l2 : String, index_file_name l1 = index_file_name l2 → l1 = l2 := by
    intro l1 l2 h
    unfold index_file_name at h
    have hd := congrArg String.data h
    rw [String.data_append, String.data_append, String.data_append,
      String.data_append] at hd
    exact String.ext (List.append_cancel_left (List.append_cancel_right hd))
  refine ⟨?_, ?_, hinj, fun _ => rfl⟩
  · intro fs language idx
    unfold load_index save_index
    rw [Function.update_same]
  · intro fs language idx lang2 hne
    unfold load_index save_index
    exact Function.update_noteq (fun hc => hne (hinj lang2 language hc)) _ _

theorem index_persistence_roundtrip_witness :
    load_index (save_index (fun _ => none) "en" emptyIndex) "en" = some emptyIndex ∧
    load_index (save_index (fun _ => none) "en" emptyIndex) "es" = none ∧
    ("en" : String) = "en" ∧
    index_file_name "en" = "sentence_index_" ++ "en" ++ ".pkl" :=
  ⟨index_persistence_roundtrip.1 (fun _ => none) "en" emptyIndex,
   (index_persistence_roundtrip.2.1 (fun _ => none) "en" emptyIndex "es"
      (by decide)).trans rfl,
   index_persistence_roundtrip.2.2.1 "en" "en" rfl,
   index_persistence_roundtrip.2.2.2 "en"⟩

/-- C5, counterexample: the single-token position sub-score is one at
a character-offset fraction of three tenths, which lies outside the
middle forty to seventy percent band the claim states. -/
theorem target_position_band_cex :
    score_target_position "aaabzzzzzz" "b" = some 1 ∧
    charOffsetFrac "aaabzzzzzz" "b" = 3 / 10 ∧
    ¬ ((4 : ℚ) / 10 ≤ 3 / 10) := by
  refine ⟨by with_unfolding_all decide, by with_unfolding_all decide, by norm_num⟩

/-- C5, amended: for a single-token target occurring in the sentence,
the target-position sub-score equals one exactly when the character
offset fraction of the match lies in the band from thirty to seventy
percent of the sentence, and is strictly below one outside that
band. -/
theorem target_position_band_amended :
    ∀ (sentence target_phrase target_word : String) (start_idx : Nat),
      pySplit (pyLower target_phrase) = [target_word] →
      strFind (pyLower sentence).data target_word.data = some start_idx →
      ((score_target_position sentence target_phrase = some 1 ↔
          (3 / 10 ≤ (start_idx : ℚ) / ((pyLower sentence).data.length : ℚ) ∧
           (start_idx : ℚ) / ((pyLower sentence).data.length : ℚ) ≤ 7 / 10)) ∧
       (((start_idx : ℚ) / ((pyLower sentence).data.length : ℚ) < 3 / 10 ∨
         7 / 10 < (start_idx : ℚ) / ((pyLower sentence).data.length : ℚ)) →
        ∃ q, score_target_position sentence target_phrase = some q ∧ q < 1)) := by
  intro sentence target_phrase target_word start_idx hsplit hfind
  have heq : score_target_position sentence target_phrase =
      some (singleBandScore
        ((start_idx : ℚ) / ((pyLower sentence).data.length : ℚ))) := by
    unfold score_target_position
    simp only [hsplit, hfind]
  set frac : ℚ := (start_idx : ℚ) / ((pyLower sentence).data.length : ℚ) with hfr
  have hband := singleBandScore_eq_one_iff frac
  constructor
  · rw [heq]
    simp only [Option.some.injEq]
    exact hband.1
  · intro hout
    exact ⟨singleBandScore frac, heq, hband.2 hout⟩

theorem target_position_band_amended_witness :
    (score_target_position "aaabzzzzzz" "b" = some 1 ↔
      (3 / 10 ≤ ((3 : ℕ) : ℚ) / (((pyLower "aaabzzzzzz").data.length : ℕ) : ℚ) ∧
       ((3 : ℕ) : ℚ) / (((pyLower "aaabzzzzzz").data.length : ℕ) : ℚ) ≤ 7 / 10)) ∧
    ((((3 : ℕ) : ℚ) / (((pyLower "aaabzzzzzz").data.length : ℕ) : ℚ) < 3 / 10 ∨
      7 / 10 < ((3 : ℕ) : ℚ) / (((pyLower "aaabzzzzzz").data.length : ℕ) : ℚ)) →
      ∃ q, score_target_position "aaabzzzzzz" "b" = some q ∧ q < 1) :=
  target_position_band_amended "aaabzzzzzz" "b" "b" 3 (by with_unfolding_all decide)
    (by with_unfolding_all decide)

/-- C6, counterexample: a single-token target absent from the sentence
scores exactly zero, not a low fixed non-zero value, while a
multi-token target with a missing token scores the non-zero value one
tenth, not zero. -/
theorem target_position_miss_cex :
    score_target_position "hello world" "xyz" = some 0 ∧
    score_target_position "hello world" "foo bar" = some (1 / 10) := by
  refine ⟨by with_unfolding_all decide, by with_unfolding_all decide⟩

/-- C6, amended: when the single-token target is absent from the
sentence the target-position sub-score is zero, and in the multi-word
path with no exact substring match a missing phrase token yields the
low fixed non-zero value of one tenth. -/
theorem target_position_miss_amended :
    (∀ (sentence target_phrase target_word : String),
      pySplit (pyLower target_phrase) = [target_word] →
      strFind (pyLower sentence).data target_word.data = none →
      score_target_position sentence target_phrase = some 0) ∧
    (∀ (sentence target_phrase : String),
      (pySplit (pyLower target_phrase)).length ≠ 1 →
      strFind (pyLower sentence).data (pyLower target_phrase).data = none →
      findTokenPositions (pySplit (pyLower target_phrase)) (gdexTokenize sentence) = none →
      score_target_position sentence target_phrase = some (1 / 10)) := by
  constructor
  · intro sentence target_phrase target_word hsplit hfind
    unfold score_target_position
    simp only [hsplit, hfind]
  · intro sentence target_phrase hlen hfind hmiss
    unfold score_target_position
    rcases hsp : pySplit (pyLower target_phrase) with _ | ⟨a, _ | ⟨b, rest⟩⟩
    · rw [hsp] at hmiss
      simp only [hsp, hfind, hmiss]
    · rw [hsp] at hlen
      simp at hlen
    · rw [hsp] at hmiss
      simp only [hsp, hfind, hmiss]

theorem target_position_miss_amended_witness :
    score_target_position "abc" "zz" = some 0 ∧
    score_target_position "Good day" "alpha beta" = some (1 / 10) :=
  ⟨target_position_miss_amended.1 "abc" "zz" "zz" (by with_unfolding_all decide)
     (by with_unfolding_all decide),
   target_position_miss_amended.2 "Good day" "alpha beta" (by decide)
     (by with_unfolding_all decide) (by with_unfolding_all decide)⟩

/-- C2: evaluation at the failing input.  The query token qqq has an
empty posting set, yet instead of the claimed empty result the
candidate loop restarts from the postings of hello, so the retrieval
returns the one indexed sentence, a sentence that does not contain
the query token qqq. -/
theorem get_best_examples_partial_match_eval :
    demoIndex.token_to_phrases "qqq" = [] ∧
    matching_phrases demoIndex.token_to_phrases (quick_tokenize "qqq hello") = [0] ∧
    Except.map (List.map (fun r => r.sentence))
        (get_best_examples demoRetriever "qqq hello" "en" 5)
      = Except.ok ["We can see that hello will be good for all time."] ∧
    "qqq" ∉ quick_tokenize "We can see that hello will be good for all time." := by
  refine ⟨by decide, by decide, by with_unfolding_all rfl, by decide⟩

/-- C1: whenever the retrieval routine returns a list, every returned
candidate has a total GDEX score of at least four fifths, the list is
sorted by total score in descending order, and its length is at most
top_n. -/
theorem get_best_examples_ranked_filtered :
    ∀ (r : SentenceRetriever) (phrase language : String) (top_n : Nat)
      (l : List ExampleResult),
      get_best_examples r phrase language top_n = Except.ok l →
      (∀ res ∈ l, 4 / 5 ≤ res.score) ∧
      List.Sorted (fun a b : ExampleResult => b.score ≤ a.score) l ∧
      l.length ≤ top_n := by
  intro r phrase language top_n l h
  unfold get_best_examples at h
  split at h
  · injection h with h
    subst h
    exact ⟨fun res hres => absurd hres (List.not_mem_nil res),
      List.sorted_nil, by simp⟩
  · rename_i idx hidx
    dsimp only at h
    split_ifs at h with hm
    · injection h with h
      subst h
      exact ⟨fun res hres => absurd hres (List.not_mem_nil res),
        List.sorted_nil, by simp⟩
    · split at h
      · exact Except.noConfusion h
      · rename_i scorer hsc
        split at h
        · exact Except.noConfusion h
        · rename_i results hres
          injection h with h
          subst h
          have htrans : ∀ a b c : ExampleResult,
              resultLe a b = true → resultLe b c = true → resultLe a c = true := by
            intro a b c hab hbc
            have h1 : b.score ≤ a.score := of_decide_eq_true hab
            have h2 : c.score ≤ b.score := of_decide_eq_true hbc
            exact decide_eq_true (le_trans h2 h1)
          have htotal : ∀ a b : ExampleResult,
              (resultLe a b || resultLe b a) = true := by
            intro a b
            rcases le_total a.score b.score with h1 | h1
            · exact Bool.or_eq_true_iff.mpr (Or.inr (decide_eq_true h1))
            · exact Bool.or_eq_true_iff.mpr (Or.inl (decide_eq_true h1))
          have hp := List.sorted_mergeSort htrans htotal results
          refine ⟨?_, ?_, ?_⟩
          · intro res hmem
            have h1 : res ∈ results.mergeSort resultLe :=
              (List.take_sublist _ _).subset hmem
            exact scoreCandidates_threshold scorer idx phrase _ results hres res
              (List.mem_mergeSort.mp h1)
          · have hp2 : List.Pairwise (fun a b : ExampleResult => b.score ≤ a.score)
                (results.mergeSort resultLe) :=
              hp.imp (fun hab => of_decide_eq_true hab)
            exact List.Pairwise.sublist (List.take_sublist _ _) hp2
          · exact List.length_take_le _ _

theorem get_best_examples_ranked_filtered_witness :
    (∀ res ∈ ([] : List ExampleResult), 4 / 5 ≤ res.score) ∧
    List.Sorted (fun a b : ExampleResult => b.score ≤ a.score)
      ([] : List ExampleResult) ∧
    ([] : List ExampleResult).length ≤ 3 :=
  get_best_examples_ranked_filtered emptyRetriever "hello" "en" 3 [] rfl

theorem buildStep_inv (st : BuildState) (p : PhraseRec)
    (h1 : st.phrase_ids.length = st.texts.length)
    (h2 : st.texts.length = st.tokenized_texts.length)
    (h3 : ∀ t q, q ∈ st.token_to_phrases t →
      ∃ toks, st.tokenized_texts.get? q = some toks ∧ t ∈ toks)
    (h4 : ∀ toks ∈ st.tokenized_texts, toks.length ≤ MAX_SENTENCE_TOKENS) :
    (buildStep st p).phrase_ids.length = (buildStep st p).texts.length ∧
    (buildStep st p).texts.length = (buildStep st p).tokenized_texts.length ∧
    (∀ t q, q ∈ (buildStep st p).token_to_phrases t →
      ∃ toks, (buildStep st p).tokenized_texts.get? q = some toks ∧ t ∈ toks) ∧
    (∀ toks ∈ (buildStep st p).tokenized_texts,
      toks.length ≤ MAX_SENTENCE_TOKENS) := by
  unfold buildStep
  dsimp only
  split_ifs with hlen
  · refine ⟨?_, ?_, ?_, ?_⟩
    · simp [h1]
    · simp [h2]
    · intro t q hq
      rcases addPhraseTokens_mem _ _ _ _ _ hq with hold | ⟨hq0, ht⟩
      · rcases h3 t q hold with ⟨toks, hg, hmemt⟩
        have hqlt : q < st.tokenized_texts.length := by
          rcases List.get?_eq_some.mp hg with ⟨hlt, _⟩
          exact hlt
        exact ⟨toks, by rw [List.get?_append hqlt]; exact hg, hmemt⟩
      · subst hq0
        refine ⟨quick_tokenize p.text, ?_, ht⟩
        rw [h1.trans h2, List.get?_concat_length]
    · intro toks hmem
      rcases List.mem_append.mp hmem with hm | hm
      · exact h4 toks hm
      · rw [List.mem_singleton.mp hm]
        exact hlen
  · exact ⟨h1, h2, h3, h4⟩

theorem buildFold_inv :
    ∀ (l : List PhraseRec) (st : BuildState),
      st.phrase_ids.length = st.texts.length →
      st.texts.length = st.tokenized_texts.length →
      (∀ t q, q ∈ st.token_to_phrases t →
        ∃ toks, st.tokenized_texts.get? q = some toks ∧ t ∈ toks) →
      (∀ toks ∈ st.tokenized_texts, toks.length ≤ MAX_SENTENCE_TOKENS) →
      ((l.foldl buildStep st).phrase_ids.length =
          (l.foldl buildStep st).texts.length ∧
       (l.foldl buildStep st).texts.length =
          (l.foldl buildStep st).tokenized_texts.length ∧
       (∀ t q, q ∈ (l.foldl buildStep st).token_to_phrases t →
         ∃ toks, (l.foldl buildStep st).tokenized_texts.get? q = some toks ∧
           t ∈ toks) ∧
       (∀ toks ∈ (l.foldl buildStep st).tokenized_texts,
         toks.length ≤ MAX_SENTENCE_TOKENS)) := by
  intro l
  induction l with
  | nil => intro st h1 h2 h3 h4; exact ⟨h1, h2, h3, h4⟩
  | cons a as ih =>
    intro st h1 h2 h3 h4
    simp only [List.foldl_cons]
    have hstep := buildStep_inv st a h1 h2 h3 h4
    exact ih (buildStep st a) hstep.1 hstep.2.1 hstep.2.2.1 hstep.2.2.2

/-- C7: after a successful index build, the parallel arrays of ids,
texts and tokenizations all have the same length, every position in
the posting entry of a token points at a tokenization containing that
token, and every indexed tokenization has at most thirty tokens. -/
theorem build_sentence_index_invariants :
    ∀ (db : CorpusDB) (language : String) (idx : IndexData),
      build_sentence_index db language = some idx →
      idx.phrase_ids.length = idx.texts.length ∧
      idx.texts.length = idx.tokenized_texts.length ∧
      (∀ t p, p ∈ idx.token_to_phrases t →
        ∃ toks, idx.tokenized_texts.get? p = some toks ∧ t ∈ toks) ∧
      (∀ toks ∈ idx.tokenized_texts, toks.length ≤ MAX_SENTENCE_TOKENS) := by
  intro db language idx h
  unfold build_sentence_index at h
  dsimp only at h
  split_ifs at h with hempty hnone
  · injection h with h
    subst h
    dsimp only
    have hinv := buildFold_inv
      (((db.phrases.filter (fun p => p.language == language)).filter
        (fun p => (pySplit p.text).length ≤ 35)))
      ⟨[], [], [], fun _ => []⟩ rfl rfl
      (by intro t q hq; exact absurd hq (List.not_mem_nil q))
      (by intro toks hmem; exact absurd hmem (List.not_mem_nil toks))
    exact hinv

theorem build_sentence_index_invariants_witness :
    demoIndex.phrase_ids.length = demoIndex.texts.length ∧
    demoIndex.texts.length = demoIndex.tokenized_texts.length ∧
    (∀ t p, p ∈ demoIndex.token_to_phrases t →
      ∃ toks, demoIndex.tokenized_texts.get? p = some toks ∧ t ∈ toks) ∧
    (∀ toks ∈ demoIndex.tokenized_texts, toks.length ≤ MAX_SENTENCE_TOKENS) :=
  build_sentence_index_invariants demoDB "en" demoIndex (by with_unfolding_all rfl)

theorem score_length_bounds (cfg : GdexScorer) (tokens : List String)
    (hmin : 0 < cfg.min_length) (hlt : cfg.min_length < cfg.max_length)
    (hmax : cfg.max_length < 30) :
    0 ≤ score_length cfg tokens ∧ score_length cfg tokens ≤ 1 := by
  unfold score_length
  dsimp only
  rw [show ((MAX_LENGTH : ℕ) : ℚ) = 30 by norm_num [MAX_LENGTH]]
  have hminQ : (0 : ℚ) < (cfg.min_length : ℚ) := by exact_mod_cast hmin
  have hltQ : (cfg.min_length : ℚ) < (cfg.max_length : ℚ) := by exact_mod_cast hlt
  have hmaxQ : (cfg.max_length : ℚ) < 30 := by exact_mod_cast hmax
  have hn0 : (0 : ℚ) ≤ (tokens.length : ℚ) := Nat.cast_nonneg _
  set n : ℚ := (tokens.length : ℚ)
  set minL : ℚ := (cfg.min_length : ℚ)
  set maxL : ℚ := (cfg.max_length : ℚ)
  split_ifs with h1 h2 h3
  · obtain ⟨ha, hb⟩ := h1
    have hpos : (0 : ℚ) < (maxL - minL) / 2 := by linarith
    have hdist : |n - (minL + maxL) / 2| ≤ (maxL - minL) / 2 := by
      rw [abs_le]
      constructor <;> linarith
    have hd1 : |n - (minL + maxL) / 2| / ((maxL - minL) / 2) ≤ 1 :=
      (div_le_one hpos).mpr hdist
    have hd0 : 0 ≤ |n - (minL + maxL) / 2| / ((maxL - minL) / 2) :=
      div_nonneg (abs_nonneg _) (le_of_lt hpos)
    constructor <;> linarith
  · constructor
    · exact le_max_left 0 _
    · apply max_le (by norm_num)
      have : n / minL ≤ 1 := (div_le_one hminQ).mpr (le_of_lt h2)
      linarith
  · norm_num
  · constructor
    · exact le_max_left 0 _
    · apply max_le (by norm_num)
      push_neg at h1 h2 h3
      have hgt : maxL < n := h1 h2
      have hq0 : 0 ≤ (n - maxL) / (30 - maxL) :=
        div_nonneg (by linarith) (by linarith)
      linarith

theorem score_common_words_bounds (cfg : GdexScorer) (tokens : List String) :
    0 ≤ score_common_words cfg tokens ∧ score_common_words cfg tokens ≤ 1 := by
  rcases em (tokens = []) with hnil | hnil
  · subst hnil
    simp [score_common_words]
  · have hlenpos : (0 : ℚ) < (tokens.length : ℚ) := by
      have := List.length_pos.mpr hnil
      exact_mod_cast this
    have hccle : ((tokens.filter (fun t => cfg.common_words.contains t)).length : ℚ) ≤
        (tokens.length : ℚ) := by
      exact_mod_cast List.length_filter_le _ _
    have hcc0 : (0 : ℚ) ≤
        ((tokens.filter (fun t => cfg.common_words.contains t)).length : ℚ) :=
      Nat.cast_nonneg _
    have hfrac0 : 0 ≤
        ((tokens.filter (fun t => cfg.common_words.contains t)).length : ℚ) /
          (tokens.length : ℚ) := div_nonneg hcc0 (le_of_lt hlenpos)
    unfold score_common_words
    dsimp only
    rw [if_neg hnil]
    set idl : ℚ := (if cfg.proficiency = "beginner" then (9 : ℚ) / 10
      else if cfg.proficiency = "intermediate" then 4 / 5 else 7 / 10) with hidl
    have hip : 0 < idl := by
      rw [hidl]
      split_ifs <;> norm_num
    split_ifs with hge
    · norm_num
    · push_neg at hge
      constructor
      · exact div_nonneg hfrac0 (le_of_lt hip)
      · rw [div_le_one hip]
        linarith

theorem score_avoid_words_bounds (cfg : GdexScorer) (tokens : List String) :
    0 ≤ score_avoid_words cfg tokens ∧ score_avoid_words cfg tokens ≤ 1 := by
  unfold score_avoid_words
  split_ifs <;> norm_num

theorem score_pronouns_bounds (cfg : GdexScorer) (tokens : List String) :
    0 ≤ score_pronouns cfg tokens ∧ score_pronouns cfg tokens ≤ 1 := by
  rcases tokens with _ | ⟨t0, rest⟩
  · simp [score_pronouns]
  · unfold score_pronouns
    dsimp only
    split_ifs <;> norm_num

theorem score_syntactic_bounds (sentence : String) :
    0 ≤ score_syntactic sentence ∧ score_syntactic sentence ≤ 1 := by
  unfold score_syntactic
  rcases hdata : sentence.data with _ | ⟨c0, rest⟩
  · norm_num
  · dsimp only
    constructor
    · exact le_max_left 0 _
    · apply max_le (by norm_num)
      split_ifs <;> norm_num

theorem idealLengthRange_cases (p : String) :
    idealLengthRange p = (5, 10) ∨ idealLengthRange p = (7, 15) ∨
      idealLengthRange p = (10, 20) := by
  unfold idealLengthRange
  split_ifs <;> simp

theorem mkGdexScorer_length_facts (language proficiency : String)
    (cfg : GdexScorer) (h : mkGdexScorer language proficiency = some cfg) :
    0 < cfg.min_length ∧ cfg.min_length < cfg.max_length ∧ cfg.max_length < 30 := by
  unfold mkGdexScorer at h
  dsimp only at h
  split_ifs at h with h1 h2
  · injection h with h
    subst h
    rcases idealLengthRange_cases (pyLower proficiency) with hc | hc | hc <;>
      simp [hc]
  · injection h with h
    subst h
    rcases idealLengthRange_cases (pyLower proficiency) with hc | hc | hc <;>
      simp [hc]

/-- C8: for every scorer that the constructor accepts, every sentence,
target phrase and optional tokenization, each of the six sub-scores
and the weighted total returned by the scoring routine lies in the
closed unit interval. -/
theorem score_sentence_bounded :
    ∀ (language proficiency : String) (cfg : GdexScorer),
      mkGdexScorer language proficiency = some cfg →
      ∀ (sentence target_phrase : String) (tokenized : Option (List String))
        (sc : GdexScores),
        score_sentence cfg sentence target_phrase tokenized = some sc →
        withinUnit sc.length ∧ withinUnit sc.target_position ∧
        withinUnit sc.common_words ∧ withinUnit sc.avoid_words ∧
        withinUnit sc.pronouns ∧ withinUnit sc.syntactic ∧
        withinUnit sc.total := by
  intro language proficiency cfg hmk sentence target_phrase tokenized sc hsc
  obtain ⟨hm1, hm2, hm3⟩ := mkGdexScorer_length_facts language proficiency cfg hmk
  unfold score_sentence at hsc
  dsimp only at hsc
  split at hsc
  · exact Option.noConfusion hsc
  · rename_i tps htps
    injection hsc with hsc
    subst hsc
    have hL := score_length_bounds cfg
      (tokenized.getD (gdexTokenize (pyStrip sentence))) hm1 hm2 hm3
    have hT := score_target_position_bounds (pyStrip sentence)
      (pyLower target_phrase) tps htps
    have hC := score_common_words_bounds cfg
      (tokenized.getD (gdexTokenize (pyStrip sentence)))
    have hA := score_avoid_words_bounds cfg
      (tokenized.getD (gdexTokenize (pyStrip sentence)))
    have hP := score_pronouns_bounds cfg
      (tokenized.getD (gdexTokenize (pyStrip sentence)))
    have hS := score_syntactic_bounds (pyStrip sentence)
    refine ⟨hL, hT, hC, hA, hP, hS, ?_⟩
    unfold withinUnit
    dsimp only
    obtain ⟨hL0, hL1⟩ := hL
    obtain ⟨hT0, hT1⟩ := hT
    obtain ⟨hC0, hC1⟩ := hC
    obtain ⟨hA0, hA1⟩ := hA
    obtain ⟨hP0, hP1⟩ := hP
    obtain ⟨hS0, hS1⟩ := hS
    unfold gdexWeights
    split_ifs with hb ha <;> dsimp only <;> constructor <;> linarith

theorem score_sentence_bounded_witness :
    withinUnit ((⟨1 / 14, 1 / 2, 0, 1, 1, 1, 137 / 280⟩ : GdexScores).length) ∧
    withinUnit ((⟨1 / 14, 1 / 2, 0, 1, 1, 1, 137 / 280⟩ : GdexScores).target_position) ∧
    withinUnit ((⟨1 / 14, 1 / 2, 0, 1, 1, 1, 137 / 280⟩ : GdexScores).common_words) ∧
    withinUnit ((⟨1 / 14, 1 / 2, 0, 1, 1, 1, 137 / 280⟩ : GdexScores).avoid_words) ∧
    withinUnit ((⟨1 / 14, 1 / 2, 0, 1, 1, 1, 137 / 280⟩ : GdexScores).pronouns) ∧
    withinUnit ((⟨1 / 14, 1 / 2, 0, 1, 1, 1, 137 / 280⟩ : GdexScores).syntactic) ∧
    withinUnit ((⟨1 / 14, 1 / 2, 0, 1, 1, 1, 137 / 280⟩ : GdexScores).total) :=
  score_sentence_bounded "en" "intermediate"
    ⟨COMMON_WORDS_EN, AVOID_WORDS_EN, PRONOUNS_EN, "intermediate", 7, 15⟩
    (by with_unfolding_all rfl) "Hello." "hello" none
    ⟨1 / 14, 1 / 2, 0, 1, 1, 1, 137 / 280⟩ (by with_unfolding_all decide)

theorem foldl_post_noteq (pos : Nat) :
    ∀ (l : List String) (m : String → List Nat) (t : String),
      t ∉ l →
      (l.foldl (fun acc tok => Function.update acc tok ((acc tok).insert pos)) m) t
        = m t := by
  intro l
  induction l with
  | nil => intro m t _; rfl
  | cons a as ih =>
    intro m t h
    simp only [List.foldl_cons]
    have hta : t ≠ a := fun hc => h (hc ▸ List.mem_cons_self a as)
    rw [ih _ t (fun hc => h (List.mem_cons_of_mem a hc)),
      Function.update_noteq hta]

theorem addPhraseTokens_noteq (m : String → List Nat) (tokens : List String)
    (pos : Nat) (t : String) (h : t ∉ tokens) :
    addPhraseTokens m tokens pos t = m t := by
  unfold addPhraseTokens
  exact foldl_post_noteq pos tokens.dedup m t (fun hc => h (List.mem_dedup.mp hc))

/-- C4: the incremental-add operation appends the new sentence to
every parallel index structure, records its metadata, keeps every
existing posting position and leaves the posting entries of absent
tokens untouched, and afterwards a query whose only token is a token
of the new sentence includes the new position in its intersection
set.  The operation itself is modelled from the spec, since its
definition is absent from the retriever source. -/
theorem add_one_append_and_visibility :
    ∀ (idx : IndexData) (rec : PhraseRec) (meta : PhraseMeta)
      (tokens : List String),
      ((add_one idx rec meta tokens).phrase_ids = idx.phrase_ids ++ [rec.id] ∧
       (add_one idx rec meta tokens).texts = idx.texts ++ [rec.text] ∧
       (add_one idx rec meta tokens).tokenized_texts =
         idx.tokenized_texts ++ [tokens] ∧
       (add_one idx rec meta tokens).metadata rec.id = some meta) ∧
      (∀ t p, p ∈ idx.token_to_phrases t →
        p ∈ (add_one idx rec meta tokens).token_to_phrases t) ∧
      (∀ t, t ∉ tokens →
        (add_one idx rec meta tokens).token_to_phrases t =
          idx.token_to_phrases t) ∧
      (∀ t, t ∈ tokens →
        idx.phrase_ids.length ∈
          matching_phrases (add_one idx rec meta tokens).token_to_phrases [t]) := by
  intro idx rec meta tokens
  refine ⟨⟨rfl, rfl, rfl, ?_⟩, ?_, ?_, ?_⟩
  · unfold add_one
    dsimp only
    rw [Function.update_same]
  · intro t p hp
    exact addPhraseTokens_mem_old _ _ _ _ _ hp
  · intro t ht
    exact addPhraseTokens_noteq _ _ _ _ ht
  · intro t ht
    have hm : matching_phrases (add_one idx rec meta tokens).token_to_phrases [t]
        = (add_one idx rec meta tokens).token_to_phrases t := rfl
    rw [hm]
    exact addPhraseTokens_mem_new _ _ _ _ ht

theorem add_one_append_and_visibility_witness :
    (add_one emptyIndex demoPhrase ⟨10, "Demo Title", "fiction"⟩
      ["hello"]).phrase_ids = emptyIndex.phrase_ids ++ [demoPhrase.id] ∧
    (add_one emptyIndex demoPhrase ⟨10, "Demo Title", "fiction"⟩
      ["hello"]).token_to_phrases "zzz" = emptyIndex.token_to_phrases "zzz" ∧
    emptyIndex.phrase_ids.length ∈
      matching_phrases (add_one emptyIndex demoPhrase ⟨10, "Demo Title", "fiction"⟩
        ["hello"]).token_to_phrases ["hello"] :=
  ⟨(add_one_append_and_visibility emptyIndex demoPhrase
      ⟨10, "Demo Title", "fiction"⟩ ["hello"]).1.1,
   (add_one_append_and_visibility emptyIndex demoPhrase
      ⟨10, "Demo Title", "fiction"⟩ ["hello"]).2.2.1 "zzz" (by decide),
   (add_one_append_and_visibility emptyIndex demoPhrase
      ⟨10, "Demo Title", "fiction"⟩ ["hello"]).2.2.2 "hello" (by decide)⟩
